import Mathlib

/-!
Verification development for the Event_Management repository
(Django apps `events`, `rsvp`, `checkin`).

The core registration-and-capacity lifecycle is shallowly embedded:

* `Event`, `RSVP`, `CheckIn` mirror the Django models
  (`events/models.py`, `rsvp/models.py`, `checkin/models.py`),
  restricted to the fields the business logic reads or writes.
* `DB` is the relational store: lists of rows plus the id counters the
  database would maintain.  Django's `unique` / `unique_together`
  constraints are modelled explicitly where an operation can hit them.
* The view functions `create_rsvp` (rsvp/views.py), `cancel_rsvp`
  (rsvp/views.py), `perform_checkin` and `undo_checkin`
  (checkin/views.py) and the model methods `RSVP.cancel`,
  `RSVP.mark_attended`, `Event.save` are embedded as `createRsvp`,
  `cancelRsvp`, `performCheckin`, `undoCheckin`, `createEvent`.
* Python strings are embedded as `List Char`; the Python string methods
  used by the scan-time parser (`strip`, `upper`, `split('|')[0]`,
  `replace('TICKET:','')`, `in`) are given as executable functions.
* `timezone.now()` is passed in as an explicit integer timestamp; the
  framework-managed current user is an explicit argument.
* The ticket generator `TKT-{uuid.uuid4().hex[:12].upper()}` together
  with the `unique=True` column constraint is modelled as a fresh-supply
  counter `nextTicket` rendered by `ticketChars` (prefix `TKT-` followed
  by decimal digits): an injective source of upper-case alphanumeric
  ticket strings, which is what the uuid token plus the uniqueness
  constraint provide.
-/

/-! ## Python string operations on `List Char` -/

/-- Characters Python's `str.strip()` removes (ASCII whitespace). -/
def isSpC (c : Char) : Bool :=
  c = ' ' || c = '\t' || c = '\n' || c = '\r' || c = '\x0b' || c = '\x0c'

/-- ASCII case conversion of one character, as in Python `str.upper()`
(the ticket alphabet is ASCII). -/
def pyUpperChar (c : Char) : Char :=
  if 97 ≤ c.toNat ∧ c.toNat ≤ 122 then Char.ofNat (c.toNat - 32) else c

/-- Python `s.upper()`. -/
def pyUpper (l : List Char) : List Char := l.map pyUpperChar

/-- Python `s.strip()`. -/
def pyStrip (l : List Char) : List Char :=
  ((l.dropWhile isSpC).reverse.dropWhile isSpC).reverse

/-- Python `s.split('|')[0]`: the characters before the first `'|'`. -/
def takeUntilBar (l : List Char) : List Char :=
  l.takeWhile (fun c => !(c = '|' : Bool))

/-- Does `l` start with the pattern `p`? -/
def startsWithL : List Char → List Char → Bool
  | [], _ => true
  | _ :: _, [] => false
  | a :: as, b :: bs => a = b && startsWithL as bs

/-- Python `p in l` (substring test). -/
def containsSeq (p : List Char) : List Char → Bool
  | [] => decide (p = [])
  | c :: cs => startsWithL p (c :: cs) || containsSeq p cs

/-- The literal `TICKET:` looked for by `perform_checkin`. -/
def tagTicket : List Char := ['T', 'I', 'C', 'K', 'E', 'T', ':']

/-- The literal `|EVENT:` of the QR payload. -/
def tagEvent : List Char := ['|', 'E', 'V', 'E', 'N', 'T', ':']

/-- The literal `|USER:` of the QR payload. -/
def tagUser : List Char := ['|', 'U', 'S', 'E', 'R', ':']

/-- Fuelled worker for Python `s.replace('TICKET:', '')`: scan left to
right, dropping each occurrence of the seven-character pattern.  The
fuel is the length of the list, which bounds the number of steps. -/
def replAux : Nat → List Char → List Char
  | 0, l => l
  | _ + 1, [] => []
  | f + 1, c :: cs =>
    if startsWithL tagTicket (c :: cs) then replAux f (cs.drop 6)
    else c :: replAux f cs

/-- Python `s.replace('TICKET:', '')`. -/
def replTkt (l : List Char) : List Char := replAux l.length l

/-- The scan-input normalisation of `perform_checkin`
(checkin/views.py): `strip().upper()`, then, when the QR payload marker
is present, `split('|')[0].replace('TICKET:', '')`. -/
def extractTicket (input : List Char) : List Char :=
  let t := pyUpper (pyStrip input)
  if containsSeq tagTicket t then replTkt (takeUntilBar t) else t

/-! ## Ticket rendering -/

/-- One decimal digit as a character. -/
def digitChar : Nat → Char
  | 0 => '0' | 1 => '1' | 2 => '2' | 3 => '3' | 4 => '4'
  | 5 => '5' | 6 => '6' | 7 => '7' | 8 => '8' | _ => '9'

/-- Numeric value of a digit character. -/
def digitVal (c : Char) : Nat := c.toNat - 48

/-- Fuelled most-significant-first decimal rendering. -/
def natDigsAux : Nat → Nat → List Char
  | 0, _ => []
  | f + 1, n =>
    if n < 10 then [digitChar n]
    else natDigsAux f (n / 10) ++ [digitChar (n % 10)]

/-- Decimal rendering of a natural number. -/
def natDigs (n : Nat) : List Char := natDigsAux (n + 1) n

/-- Parse a digit string back to a number (used to show `natDigs` is
injective). -/
def digsToNat (l : List Char) : Nat := l.foldl (fun a c => a * 10 + digitVal c) 0

/-- The rendered ticket string of the k-th issued ticket.  Models
`RSVP.save` (rsvp/models.py): `TKT-` followed by the token of an
injective generator of upper-case alphanumeric strings (in the source a
uuid4 hex token guarded by the column's `unique=True`; here the fresh
counter in decimal). -/
def ticketChars (k : Nat) : List Char := ['T', 'K', 'T', '-'] ++ natDigs k

/-- The QR payload written by `RSVP.generate_qr_code` (rsvp/models.py):
`TICKET:{ticket_number}|EVENT:{event.id}|USER:{user.id}`. -/
def qrData (tn : List Char) (eid uid : Nat) : List Char :=
  tagTicket ++ tn ++ tagEvent ++ natDigs eid ++ tagUser ++ natDigs uid

/-! ## Data model -/

/-- RSVP.STATUS_CHOICES (rsvp/models.py). -/
inductive RStatus
  | pending | confirmed | cancelled | attended
deriving DecidableEq

/-- Event.STATUS_CHOICES (events/models.py). -/
inductive EStatus
  | draft | published | cancelled | completed
deriving DecidableEq

/-- Row of the `events` table, restricted to the fields the lifecycle
logic touches (events/models.py).  `id` also stands in for the unique
slug used by the views to look the event up. -/
structure Event where
  id : Nat
  organizer : Nat
  status : EStatus
  startDate : Int
  totalSeats : Int
  availableSeats : Int
deriving DecidableEq

/-- Row of the `rsvps` table (rsvp/models.py).  `ticketNumber` is the
index into the fresh ticket supply; its string form is
`ticketChars ticketNumber`. -/
structure RSVP where
  id : Nat
  eventId : Nat
  userId : Nat
  status : RStatus
  numberOfTickets : Int
  ticketNumber : Nat
deriving DecidableEq

/-- Row of the `checkins` table (checkin/models.py). -/
structure CheckIn where
  id : Nat
  rsvpId : Nat
  checkedInBy : Nat
deriving DecidableEq

/-- The relational store: the three tables plus the id/ticket counters
the database maintains. -/
structure DB where
  events : List Event
  rsvps : List RSVP
  checkins : List CheckIn
  nextEventId : Nat
  nextRsvpId : Nat
  nextCheckinId : Nat
  nextTicket : Nat
deriving DecidableEq

/-- The empty store. -/
def db0 : DB := ⟨[], [], [], 0, 0, 0, 0⟩

/-- User-facing failures of the embedded views, following the error
taxonomy of the spec.  `uniqueViolation` is the database
`IntegrityError` raised when an insert breaks
`unique_together = ['event', 'user']` (rsvp/models.py). -/
inductive Err
  | eventNotFound
  | unauthorized
  | duplicateRegistration
  | capacityExceeded
  | eventClosed
  | formInvalid
  | uniqueViolation
  | alreadyCancelled
  | eventStarted
  | cannotCancelAttended
  | alreadyCheckedIn
  | ticketNotFound
  | rsvpNotFound
  | checkinNotFound
deriving DecidableEq

/-! ## Row lookups and updates -/

/-- First event with the given id. -/
def findEvent : List Event → Nat → Option Event
  | [], _ => none
  | e :: es, i => if e.id = i then some e else findEvent es i

/-- First RSVP with the given id. -/
def findRsvpById : List RSVP → Nat → Option RSVP
  | [], _ => none
  | r :: rs, i => if r.id = i then some r else findRsvpById rs i

/-- `RSVP.objects.filter(event=event, user=request.user).first()`. -/
def findRsvpByEventUser : List RSVP → Nat → Nat → Option RSVP
  | [], _, _ => none
  | r :: rs, e, u =>
    if r.eventId = e ∧ r.userId = u then some r else findRsvpByEventUser rs e u

/-- `RSVP.objects.get(ticket_number=tn, event=event)`
(checkin/views.py scan-time lookup). -/
def findRsvpByTicket : List RSVP → List Char → Nat → Option RSVP
  | [], _, _ => none
  | r :: rs, tn, e =>
    if ticketChars r.ticketNumber = tn ∧ r.eventId = e then some r
    else findRsvpByTicket rs tn e

/-- The one-to-one reverse accessor `rsvp.checkin`
(`hasattr(rsvp, 'checkin')`). -/
def findCheckinByRsvp : List CheckIn → Nat → Option CheckIn
  | [], _ => none
  | c :: cs, r => if c.rsvpId = r then some c else findCheckinByRsvp cs r

/-- First check-in with the given id. -/
def findCheckinById : List CheckIn → Nat → Option CheckIn
  | [], _ => none
  | c :: cs, i => if c.id = i then some c else findCheckinById cs i

/-- Persist a changed `available_seats` on the event row
(`event.save()` on an existing primary key). -/
def updateEventSeats : List Event → Nat → Int → List Event
  | [], _, _ => []
  | e :: es, i, v =>
    (if e.id = i then { e with availableSeats := v } else e)
      :: updateEventSeats es i v

/-- Persist a changed `status` on the RSVP row (`rsvp.save()`). -/
def updateRsvpStatus : List RSVP → Nat → RStatus → List RSVP
  | [], _, _ => []
  | r :: rs, i, st =>
    (if r.id = i then { r with status := st } else r)
      :: updateRsvpStatus rs i st

/-- `checkin.delete()`. -/
def removeCheckin : List CheckIn → Nat → List CheckIn
  | [], _ => []
  | c :: cs, i =>
    if c.id = i then removeCheckin cs i else c :: removeCheckin cs i

/-- Does any row — of any status — exist for this (event, user) pair?
This is the `unique_together` constraint the insert must satisfy. -/
def hasRsvpRow (rs : List RSVP) (e u : Nat) : Bool :=
  match findRsvpByEventUser rs e u with
  | some _ => true
  | none => false

/-- The duplicate check of `create_rsvp`: an existing row whose status
is not `cancelled`. -/
def activeDup (rs : List RSVP) (e u : Nat) : Bool :=
  match findRsvpByEventUser rs e u with
  | some ex => decide (ex.status ≠ RStatus.cancelled)
  | none => false

/-! ## Operations -/

/-- `Event.save` on a fresh row (events/models.py, `event_create` view):
the new event gets `available_seats = total_seats`.  Slug generation is
replaced by the fresh `id` the store assigns. -/
def createEvent (db : DB) (organizer : Nat) (st : EStatus)
    (start total : Int) : DB :=
  { db with
    events := { id := db.nextEventId, organizer := organizer, status := st,
                startDate := start, totalSeats := total,
                availableSeats := total } :: db.events,
    nextEventId := db.nextEventId + 1 }

/-- `create_rsvp` (rsvp/views.py) on a POST with the quantity `n`.
The guards appear in source order: published-event lookup (a 404 when
absent or unpublished), the duplicate check (`status != 'cancelled'`),
`event.is_full()`, the started-event check, form validation
(`number_of_tickets ≥ 1` and the form's own seat check), the view's
re-check `n > available_seats`, the seat decrement with `event.save()`,
and finally the row insert, which hits the `unique_together` constraint
when any row for (event, user) already exists — the seats having
already been persisted, as there is no enclosing transaction. -/
def createRsvp (db : DB) (now : Int) (eid uid : Nat) (n : Int) :
    DB × Except Err Nat :=
  match findEvent db.events eid with
  | none => (db, Except.error Err.eventNotFound)
  | some ev =>
    if ev.status ≠ EStatus.published then (db, Except.error Err.eventNotFound)
    else if activeDup db.rsvps eid uid then
      (db, Except.error Err.duplicateRegistration)
    else if ev.availableSeats ≤ 0 then (db, Except.error Err.capacityExceeded)
    else if ev.startDate < now then (db, Except.error Err.eventClosed)
    else if n < 1 then (db, Except.error Err.formInvalid)
    else if n > ev.availableSeats then (db, Except.error Err.capacityExceeded)
    else
      let db1 := { db with
        events := updateEventSeats db.events eid (ev.availableSeats - n) }
      if hasRsvpRow db.rsvps eid uid then
        (db1, Except.error Err.uniqueViolation)
      else
        ({ db1 with
            rsvps := { id := db.nextRsvpId, eventId := eid, userId := uid,
                       status := RStatus.confirmed, numberOfTickets := n,
                       ticketNumber := db.nextTicket } :: db1.rsvps,
            nextRsvpId := db.nextRsvpId + 1,
            nextTicket := db.nextTicket + 1 },
         Except.ok db.nextRsvpId)

/-- `cancel_rsvp` (rsvp/views.py) followed by `RSVP.cancel`
(rsvp/models.py): guards in source order, then
`status = 'cancelled'` and `event.available_seats += number_of_tickets`
— note the source adds the tickets back without any cap. -/
def cancelRsvp (db : DB) (now : Int) (rid uid : Nat) :
    DB × Except Err Unit :=
  match findRsvpById db.rsvps rid with
  | none => (db, Except.error Err.rsvpNotFound)
  | some r =>
    if r.userId ≠ uid then (db, Except.error Err.rsvpNotFound)
    else if r.status = RStatus.cancelled then
      (db, Except.error Err.alreadyCancelled)
    else
      match findEvent db.events r.eventId with
      | none => (db, Except.error Err.eventNotFound)
      | some ev =>
        if ev.startDate < now then (db, Except.error Err.eventStarted)
        else if r.status = RStatus.attended then
          (db, Except.error Err.cannotCancelAttended)
        else
          ({ db with
              events := updateEventSeats db.events r.eventId
                (ev.availableSeats + r.numberOfTickets),
              rsvps := updateRsvpStatus db.rsvps rid RStatus.cancelled },
           Except.ok ())

/-- `perform_checkin` (checkin/views.py): organizer check, form
validation of the raw input, `extractTicket`, the
(ticket_number, event) lookup — note it does not restrict by RSVP
status — the one-to-one `checkin` existence test, and on success the
`CheckIn` insert plus `RSVP.mark_attended`.

Of `CheckInForm`'s server-side validation (checkin/forms.py) the
required/strip check is embedded as the `pyStrip input = []` guard; the
field's `max_length = 100` bound is not embedded here, because the
fresh-ticket supply is rendered at unbounded width to keep it injective
(see `ticketChars`).  Stored tickets in the source are 16 characters
(`TKT-` plus 12 hex digits, against a 100-character column), so the
bound can never fire on a registration's own ticket; a theorem that
quantifies over arbitrary scan inputs therefore restricts itself to
inputs accepted by `checkInFormOk`, on which this function and the
source view agree. -/
def performCheckin (db : DB) (eid operator : Nat) (input : List Char) :
    DB × Except Err Nat :=
  match findEvent db.events eid with
  | none => (db, Except.error Err.eventNotFound)
  | some ev =>
    if ev.organizer ≠ operator then (db, Except.error Err.unauthorized)
    else if pyStrip input = [] then (db, Except.error Err.formInvalid)
    else
      match findRsvpByTicket db.rsvps (extractTicket input) eid with
      | none => (db, Except.error Err.ticketNotFound)
      | some r =>
        match findCheckinByRsvp db.checkins r.id with
        | some _ => (db, Except.error Err.alreadyCheckedIn)
        | none =>
          ({ db with
              checkins := { id := db.nextCheckinId, rsvpId := r.id,
                            checkedInBy := operator } :: db.checkins,
              nextCheckinId := db.nextCheckinId + 1,
              rsvps := updateRsvpStatus db.rsvps r.id RStatus.attended },
           Except.ok db.nextCheckinId)

/-- `undo_checkin` (checkin/views.py): organizer check, then
`checkin.rsvp.status = 'confirmed'` — unconditionally, whatever the
status was before the check-in — and `checkin.delete()`. -/
def undoCheckin (db : DB) (cid operator : Nat) : DB × Except Err Unit :=
  match findCheckinById db.checkins cid with
  | none => (db, Except.error Err.checkinNotFound)
  | some c =>
    match findRsvpById db.rsvps c.rsvpId with
    | none => (db, Except.error Err.rsvpNotFound)
    | some r =>
      match findEvent db.events r.eventId with
      | none => (db, Except.error Err.eventNotFound)
      | some ev =>
        if ev.organizer ≠ operator then (db, Except.error Err.unauthorized)
        else
          ({ db with
              rsvps := updateRsvpStatus db.rsvps r.id RStatus.confirmed,
              checkins := removeCheckin db.checkins cid },
           Except.ok ())

/-! ## Operation sequences -/

/-- One core operation with its arguments. -/
inductive Op
  | createEv (organizer : Nat) (st : EStatus) (start total : Int)
  | register (now : Int) (eid uid : Nat) (n : Int)
  | cancel (now : Int) (rid uid : Nat)
  | checkin (eid operator : Nat) (input : List Char)
  | undo (cid operator : Nat)

/-- Run one operation, keeping whatever state it leaves behind —
also on failure (a failed insert has already persisted the seat
decrement, mirroring the absence of a wrapping transaction). -/
def runOp (db : DB) : Op → DB
  | Op.createEv o st s t => createEvent db o st s t
  | Op.register now e u n => (createRsvp db now e u n).1
  | Op.cancel now r u => (cancelRsvp db now r u).1
  | Op.checkin e o i => (performCheckin db e o i).1
  | Op.undo c o => (undoCheckin db c o).1

/-- Run a sequence of operations from a state. -/
def runOps (db : DB) (ops : List Op) : DB := ops.foldl runOp db

/-! ## Character and string lemmas for the scan-time parser -/

/-- ASCII digit test, in terms of the character code. -/
def isDigitC (c : Char) : Bool := decide (48 ≤ c.toNat ∧ c.toNat ≤ 57)

theorem digitChar_isDigit (m : Nat) : isDigitC (digitChar m) = true := by
  rcases m with _ | _ | _ | _ | _ | _ | _ | _ | _ | m <;> rfl

theorem digitVal_digitChar (m : Nat) (hm : m < 10) :
    digitVal (digitChar m) = m := by
  rcases m with _ | _ | _ | _ | _ | _ | _ | _ | _ | _ | m
  all_goals first
    | decide
    | omega

theorem digit_clean (c : Char) (h : isDigitC c = true) :
    isSpC c = false ∧ pyUpperChar c = c ∧ c ≠ ':' ∧ c ≠ '|' := by
  have hb : 48 ≤ c.toNat ∧ c.toNat ≤ 57 := by
    simpa [isDigitC] using h
  refine ⟨?_, ?_, ?_, ?_⟩
  · simp only [isSpC, Bool.or_eq_false_iff, decide_eq_false_iff_not]
    refine ⟨⟨⟨⟨⟨?_, ?_⟩, ?_⟩, ?_⟩, ?_⟩, ?_⟩ <;>
      (intro h'; subst h'; revert hb; decide)
  · have : ¬ (97 ≤ c.toNat ∧ c.toNat ≤ 122) := by omega
    simp [pyUpperChar, this]
  · intro h'; subst h'; revert hb; decide
  · intro h'; subst h'; revert hb; decide

theorem natDigsAux_digits (f n : Nat) :
    ∀ c ∈ natDigsAux f n, isDigitC c = true := by
  induction f generalizing n with
  | zero => intro c hc; simp [natDigsAux] at hc
  | succ f ih =>
    intro c hc
    simp only [natDigsAux] at hc
    by_cases h : n < 10
    · simp [h] at hc
      subst hc; exact digitChar_isDigit n
    · simp [h, List.mem_append] at hc
      rcases hc with hc | hc
      · exact ih (n / 10) c hc
      · subst hc; exact digitChar_isDigit (n % 10)

theorem natDigs_digits (n : Nat) : ∀ c ∈ natDigs n, isDigitC c = true :=
  natDigsAux_digits (n + 1) n

theorem natDigsAux_ne_nil (f n : Nat) (hf : f ≠ 0) : natDigsAux f n ≠ [] := by
  cases f with
  | zero => exact absurd rfl hf
  | succ f =>
    simp only [natDigsAux]
    by_cases h : n < 10 <;> simp [h]

theorem natDigs_ne_nil (n : Nat) : natDigs n ≠ [] :=
  natDigsAux_ne_nil (n + 1) n (by omega)

theorem dropWhile_of_all_false {p : Char → Bool} {l : List Char}
    (h : ∀ c ∈ l, p c = false) : l.dropWhile p = l := by
  cases l with
  | nil => rfl
  | cons c cs =>
    rw [List.dropWhile_cons, h c (by simp)]
    simp

theorem pyStrip_id {l : List Char} (h : ∀ c ∈ l, isSpC c = false) :
    pyStrip l = l := by
  unfold pyStrip
  rw [dropWhile_of_all_false h,
      dropWhile_of_all_false (fun c hc => h c (List.mem_reverse.mp hc)),
      List.reverse_reverse]

theorem pyUpper_id {l : List Char} (h : ∀ c ∈ l, pyUpperChar c = c) :
    pyUpper l = l := by
  induction l with
  | nil => rfl
  | cons c cs ih =>
    simp only [pyUpper, List.map_cons] at *
    rw [h c (by simp), ih (fun x hx => h x (by simp [hx]))]

theorem takeUntilBar_append {xs ys : List Char}
    (h : ∀ c ∈ xs, c ≠ '|') : takeUntilBar (xs ++ '|' :: ys) = xs := by
  induction xs with
  | nil => rfl
  | cons c cs ih =>
    simp only [takeUntilBar, List.cons_append, List.takeWhile_cons]
    have hc : c ≠ '|' := h c (by simp)
    simp only [hc, decide_False, Bool.not_false, if_true]
    rw [show List.takeWhile (fun c => !(c = '|' : Bool)) (cs ++ '|' :: ys)
          = takeUntilBar (cs ++ '|' :: ys) from rfl,
        ih (fun x hx => h x (by simp [hx]))]

theorem startsWithL_append_self (p t : List Char) :
    startsWithL p (p ++ t) = true := by
  induction p with
  | nil => rfl
  | cons c cs ih => simp [startsWithL, ih]

theorem startsWithL_mem {p l : List Char} (h : startsWithL p l = true) :
    ∀ c ∈ p, c ∈ l := by
  induction p generalizing l with
  | nil => intro c hc; simp at hc
  | cons a as ih =>
    cases l with
    | nil => simp [startsWithL] at h
    | cons b bs =>
      simp only [startsWithL, Bool.and_eq_true, decide_eq_true_eq] at h
      intro c hc
      rcases List.mem_cons.mp hc with rfl | hc
      · simp [h.1]
      · exact List.mem_cons_of_mem b (ih h.2 c hc)

theorem containsSeq_of_head (t : List Char) :
    containsSeq tagTicket (tagTicket ++ t) = true := by
  have : tagTicket ++ t = 'T' :: (['I', 'C', 'K', 'E', 'T', ':'] ++ t) := rfl
  rw [this, containsSeq, ← this, startsWithL_append_self]
  simp

theorem containsSeq_eq_false_of_no_colon {l : List Char}
    (h : ∀ c ∈ l, c ≠ ':') : containsSeq tagTicket l = false := by
  induction l with
  | nil => rfl
  | cons c cs ih =>
    rw [containsSeq]
    have h1 : startsWithL tagTicket (c :: cs) = false := by
      by_contra hx
      have := startsWithL_mem (by simpa using hx) ':' (by simp [tagTicket])
      rcases List.mem_cons.mp this with h' | h'
      · exact h c (by simp) h'.symm
      · exact h ':' (by simp [h']) rfl
    rw [h1, ih (fun x hx => h x (by simp [hx]))]
    rfl

theorem replAux_of_no_tag {f : Nat} {l : List Char}
    (h : containsSeq tagTicket l = false) (hf : l.length ≤ f) :
    replAux f l = l := by
  induction f generalizing l with
  | zero => rfl
  | succ f ih =>
    cases l with
    | nil => rfl
    | cons c cs =>
      rw [containsSeq, Bool.or_eq_false_iff] at h
      rw [replAux, if_neg (by simp [h.1])]
      rw [ih h.2 (by simpa using Nat.le_of_succ_le_succ hf)]

theorem replTkt_strip_tag {tn : List Char} (h : ∀ c ∈ tn, c ≠ ':') :
    replTkt (tagTicket ++ tn) = tn := by
  have hlen : (tagTicket ++ tn).length = (6 + tn.length) + 1 := by
    simp [tagTicket]; omega
  unfold replTkt
  rw [hlen]
  rw [show tagTicket ++ tn = 'T' :: (['I', 'C', 'K', 'E', 'T', ':'] ++ tn) from rfl]
  rw [replAux, if_pos (by
    rw [show ('T' :: (['I', 'C', 'K', 'E', 'T', ':'] ++ tn))
          = tagTicket ++ tn from rfl]
    exact startsWithL_append_self tagTicket tn)]
  rw [show (['I', 'C', 'K', 'E', 'T', ':'] ++ tn).drop 6 = tn from rfl]
  exact replAux_of_no_tag (containsSeq_eq_false_of_no_colon h) (by omega)

theorem ticketChars_clean (k : Nat) :
    ∀ c ∈ ticketChars k,
      isSpC c = false ∧ pyUpperChar c = c ∧ c ≠ ':' ∧ c ≠ '|' := by
  intro c hc
  rw [ticketChars, List.mem_append] at hc
  rcases hc with hc | hc
  · fin_cases hc <;> refine ⟨by decide, by decide, by decide, by decide⟩
  · exact digit_clean c (natDigs_digits k c hc)

theorem extractTicket_ticketChars (k : Nat) :
    extractTicket (ticketChars k) = ticketChars k := by
  have hclean := ticketChars_clean k
  have h1 : pyStrip (ticketChars k) = ticketChars k :=
    pyStrip_id (fun c hc => (hclean c hc).1)
  have h2 : pyUpper (ticketChars k) = ticketChars k :=
    pyUpper_id (fun c hc => (hclean c hc).2.1)
  have h3 : containsSeq tagTicket (ticketChars k) = false :=
    containsSeq_eq_false_of_no_colon (fun c hc => (hclean c hc).2.2.1)
  simp only [extractTicket, h1, h2, h3, if_false, Bool.false_eq_true]

theorem qrData_clean (k e u : Nat) :
    ∀ c ∈ qrData (ticketChars k) e u, isSpC c = false ∧ pyUpperChar c = c := by
  intro c hc
  simp only [qrData, List.append_assoc, List.mem_append] at hc
  rcases hc with hc | hc | hc | hc | hc | hc
  · fin_cases hc <;> exact ⟨by decide, by decide⟩
  · exact ⟨(ticketChars_clean k c hc).1, (ticketChars_clean k c hc).2.1⟩
  · fin_cases hc <;> exact ⟨by decide, by decide⟩
  · exact ⟨(digit_clean c (natDigs_digits e c hc)).1,
      (digit_clean c (natDigs_digits e c hc)).2.1⟩
  · fin_cases hc <;> exact ⟨by decide, by decide⟩
  · exact ⟨(digit_clean c (natDigs_digits u c hc)).1,
      (digit_clean c (natDigs_digits u c hc)).2.1⟩

theorem qrData_assoc (tn : List Char) (e u : Nat) :
    qrData tn e u = (tagTicket ++ tn)
      ++ '|' :: (['E', 'V', 'E', 'N', 'T', ':']
        ++ (natDigs e ++ (tagUser ++ natDigs u))) := by
  simp [qrData, tagEvent, List.append_assoc]

theorem extractTicket_qrData (k e u : Nat) :
    extractTicket (qrData (ticketChars k) e u) = ticketChars k := by
  have hclean := qrData_clean k e u
  have h1 : pyStrip (qrData (ticketChars k) e u) = qrData (ticketChars k) e u :=
    pyStrip_id (fun c hc => (hclean c hc).1)
  have h2 : pyUpper (qrData (ticketChars k) e u) = qrData (ticketChars k) e u :=
    pyUpper_id (fun c hc => (hclean c hc).2)
  have h3 : containsSeq tagTicket (qrData (ticketChars k) e u) = true := by
    rw [show qrData (ticketChars k) e u
          = tagTicket ++ (ticketChars k ++ (tagEvent ++ (natDigs e
              ++ (tagUser ++ natDigs u)))) from by
        simp [qrData, List.append_assoc]]
    exact containsSeq_of_head _
  have hbar : ∀ c ∈ tagTicket ++ ticketChars k, c ≠ '|' := by
    intro c hc
    rcases List.mem_append.mp hc with hc | hc
    · fin_cases hc <;> decide
    · exact (ticketChars_clean k c hc).2.2.2
  simp only [extractTicket, h1, h2, h3, if_true]
  rw [qrData_assoc, takeUntilBar_append hbar,
      replTkt_strip_tag (fun c hc => (ticketChars_clean k c hc).2.2.1)]

/-! ## Injectivity of the ticket supply -/

theorem digsToNat_append_digit (l : List Char) (c : Char) :
    digsToNat (l ++ [c]) = digsToNat l * 10 + digitVal c := by
  simp [digsToNat, List.foldl_append]

theorem digsToNat_natDigsAux (f n : Nat) (h : n < f) :
    digsToNat (natDigsAux f n) = n := by
  induction f generalizing n with
  | zero => omega
  | succ f ih =>
    rw [natDigsAux]
    by_cases h10 : n < 10
    · simp only [h10, if_true]
      simp [digsToNat, digitVal_digitChar n h10]
    · simp only [h10, if_false]
      rw [digsToNat_append_digit,
          ih (n / 10) (by
            have : n / 10 < n := Nat.div_lt_self (by omega) (by omega)
            omega),
          digitVal_digitChar (n % 10) (by omega)]
      omega

theorem digsToNat_natDigs (n : Nat) : digsToNat (natDigs n) = n :=
  digsToNat_natDigsAux (n + 1) n (by omega)

theorem ticketChars_injective : Function.Injective ticketChars := by
  intro a b h
  rw [ticketChars, ticketChars] at h
  have h2 : natDigs a = natDigs b := List.append_cancel_left h
  have := congrArg digsToNat h2
  rwa [digsToNat_natDigs, digsToNat_natDigs] at this

theorem ticketChars_ne_nil (k : Nat) : ticketChars k ≠ [] := by
  simp [ticketChars]

theorem pyStrip_ticketChars_ne_nil (k : Nat) : pyStrip (ticketChars k) ≠ [] := by
  rw [pyStrip_id (fun c hc => (ticketChars_clean k c hc).1)]
  exact ticketChars_ne_nil k

theorem pyStrip_qrData_ne_nil (k e u : Nat) :
    pyStrip (qrData (ticketChars k) e u) ≠ [] := by
  rw [pyStrip_id (fun c hc => (qrData_clean k e u c hc).1)]
  simp [qrData, tagTicket]

/-! ## Lookup and update lemmas for the store -/

theorem findEvent_update_self (es : List Event) (i : Nat) (v : Int) :
    findEvent (updateEventSeats es i v) i
      = (findEvent es i).map (fun e => { e with availableSeats := v }) := by
  induction es with
  | nil => rfl
  | cons e es ih =>
    by_cases h : e.id = i
    · simp [updateEventSeats, findEvent, h]
    · simp [updateEventSeats, findEvent, h, ih]

theorem findEvent_update_ne (es : List Event) (i j : Nat) (v : Int)
    (hij : j ≠ i) :
    findEvent (updateEventSeats es i v) j = findEvent es j := by
  induction es with
  | nil => rfl
  | cons e es ih =>
    have hid : (if e.id = i then { e with availableSeats := v } else e).id
        = e.id := by
      by_cases h : e.id = i <;> simp [h]
    rw [updateEventSeats, findEvent]
    simp only [hid]
    by_cases h2 : e.id = j
    · have h : e.id ≠ i := by omega
      rw [findEvent, if_pos h2, if_pos h2, if_neg h]
    · rw [findEvent, if_neg h2, if_neg h2, ih]

theorem findRsvpById_sound {rs : List RSVP} {i : Nat} {r : RSVP}
    (h : findRsvpById rs i = some r) : r ∈ rs ∧ r.id = i := by
  induction rs with
  | nil => simp [findRsvpById] at h
  | cons x xs ih =>
    rw [findRsvpById] at h
    by_cases hx : x.id = i
    · rw [if_pos hx] at h
      obtain rfl : x = r := by injection h
      exact ⟨by simp, hx⟩
    · rw [if_neg hx] at h
      exact ⟨List.mem_cons_of_mem x (ih h).1, (ih h).2⟩

theorem findRsvpById_of_mem {rs : List RSVP} {r : RSVP}
    (hnd : (rs.map RSVP.id).Nodup) (hmem : r ∈ rs) :
    findRsvpById rs r.id = some r := by
  induction rs with
  | nil => simp at hmem
  | cons x xs ih =>
    rw [List.map_cons, List.nodup_cons] at hnd
    rcases List.mem_cons.mp hmem with rfl | hmem
    · simp [findRsvpById]
    · have hx : x.id ≠ r.id := by
        intro he
        exact hnd.1 (he ▸ List.mem_map_of_mem RSVP.id hmem)
      rw [findRsvpById, if_neg hx]
      exact ih hnd.2 hmem

theorem findRsvpById_update (rs : List RSVP) (i j : Nat) (st : RStatus) :
    findRsvpById (updateRsvpStatus rs i st) j
      = (findRsvpById rs j).map
          (fun r => if r.id = i then { r with status := st } else r) := by
  induction rs with
  | nil => rfl
  | cons x xs ih =>
    have hid : (if x.id = i then { x with status := st } else x).id
        = x.id := by
      by_cases hi : x.id = i <;> simp [hi]
    rw [updateRsvpStatus, findRsvpById]
    simp only [hid]
    by_cases hx : x.id = j
    · rw [findRsvpById, if_pos hx, if_pos hx]
      rfl
    · rw [findRsvpById, if_neg hx, if_neg hx, ih]

theorem findRsvpByTicket_sound {rs : List RSVP} {tn : List Char} {e : Nat}
    {r : RSVP} (h : findRsvpByTicket rs tn e = some r) :
    r ∈ rs ∧ ticketChars r.ticketNumber = tn ∧ r.eventId = e := by
  induction rs with
  | nil => simp [findRsvpByTicket] at h
  | cons x xs ih =>
    rw [findRsvpByTicket] at h
    by_cases hx : ticketChars x.ticketNumber = tn ∧ x.eventId = e
    · rw [if_pos hx] at h
      obtain rfl : x = r := by injection h
      exact ⟨by simp, hx⟩
    · rw [if_neg hx] at h
      exact ⟨List.mem_cons_of_mem x (ih h).1, (ih h).2⟩

theorem findRsvpByTicket_of_mem {rs : List RSVP} {r : RSVP}
    (hnd : (rs.map RSVP.ticketNumber).Nodup) (hmem : r ∈ rs) :
    findRsvpByTicket rs (ticketChars r.ticketNumber) r.eventId = some r := by
  induction rs with
  | nil => simp at hmem
  | cons x xs ih =>
    rw [List.map_cons, List.nodup_cons] at hnd
    rcases List.mem_cons.mp hmem with rfl | hmem
    · simp [findRsvpByTicket]
    · have hx : ¬ (ticketChars x.ticketNumber = ticketChars r.ticketNumber
          ∧ x.eventId = r.eventId) := by
        rintro ⟨h1, -⟩
        have := ticketChars_injective h1
        exact hnd.1 (this ▸ List.mem_map_of_mem RSVP.ticketNumber hmem)
      rw [findRsvpByTicket, if_neg hx]
      exact ih hnd.2 hmem

theorem findRsvpByTicket_none {rs : List RSVP} {tn : List Char} {e : Nat}
    (h : ∀ r ∈ rs, r.eventId = e → ticketChars r.ticketNumber ≠ tn) :
    findRsvpByTicket rs tn e = none := by
  induction rs with
  | nil => rfl
  | cons x xs ih =>
    rw [findRsvpByTicket, if_neg]
    · exact ih (fun r hr => h r (List.mem_cons_of_mem x hr))
    · rintro ⟨h1, h2⟩
      exact h x (by simp) h2 h1

theorem findRsvpByTicket_update (rs : List RSVP) (i : Nat) (st : RStatus)
    (tn : List Char) (e : Nat) :
    findRsvpByTicket (updateRsvpStatus rs i st) tn e
      = (findRsvpByTicket rs tn e).map
          (fun r => if r.id = i then { r with status := st } else r) := by
  induction rs with
  | nil => rfl
  | cons x xs ih =>
    by_cases hx : ticketChars x.ticketNumber = tn ∧ x.eventId = e
    · by_cases hi : x.id = i <;>
        simp [updateRsvpStatus, findRsvpByTicket, hx, hi]
    · by_cases hi : x.id = i <;>
        simp [updateRsvpStatus, findRsvpByTicket, hx, hi, ih]

theorem findCheckinByRsvp_sound {cs : List CheckIn} {i : Nat} {c : CheckIn}
    (h : findCheckinByRsvp cs i = some c) : c ∈ cs ∧ c.rsvpId = i := by
  induction cs with
  | nil => simp [findCheckinByRsvp] at h
  | cons x xs ih =>
    rw [findCheckinByRsvp] at h
    by_cases hx : x.rsvpId = i
    · rw [if_pos hx] at h
      obtain rfl : x = c := by injection h
      exact ⟨by simp, hx⟩
    · rw [if_neg hx] at h
      exact ⟨List.mem_cons_of_mem x (ih h).1, (ih h).2⟩

theorem mem_removeCheckin {cs : List CheckIn} {i : Nat} {c : CheckIn}
    (h : c ∈ removeCheckin cs i) : c ∈ cs ∧ c.id ≠ i := by
  induction cs with
  | nil => simp [removeCheckin] at h
  | cons x xs ih =>
    rw [removeCheckin] at h
    by_cases hx : x.id = i
    · rw [if_pos hx] at h
      exact ⟨List.mem_cons_of_mem x (ih h).1, (ih h).2⟩
    · rw [if_neg hx] at h
      rcases List.mem_cons.mp h with rfl | h
      · exact ⟨by simp, hx⟩
      · exact ⟨List.mem_cons_of_mem x (ih h).1, (ih h).2⟩

theorem findCheckinById_remove_none (cs : List CheckIn) (i : Nat) :
    findCheckinById (removeCheckin cs i) i = none := by
  induction cs with
  | nil => rfl
  | cons x xs ih =>
    rw [removeCheckin]
    by_cases hx : x.id = i
    · rw [if_pos hx]; exact ih
    · rw [if_neg hx, findCheckinById, if_neg hx]; exact ih

theorem findCheckinByRsvp_remove_none {cs : List CheckIn} {c : CheckIn}
    (hnd : (cs.map CheckIn.rsvpId).Nodup) (hmem : c ∈ cs) :
    findCheckinByRsvp (removeCheckin cs c.id) c.rsvpId = none := by
  cases hfind : findCheckinByRsvp (removeCheckin cs c.id) c.rsvpId with
  | none => rfl
  | some c' =>
    exfalso
    obtain ⟨hmem', hrid⟩ := findCheckinByRsvp_sound hfind
    obtain ⟨hmem'', hne⟩ := mem_removeCheckin hmem'
    have : c' = c :=
      List.inj_on_of_nodup_map hnd hmem'' hmem hrid
    exact hne (this ▸ rfl)

/-! ## Seat-counter invariant -/

/-- The documented seat invariant: `0 <= available_seats <= total_seats`
for every event row. -/
def seatInvariant (db : DB) : Prop :=
  ∀ e ∈ db.events, 0 ≤ e.availableSeats ∧ e.availableSeats ≤ e.totalSeats

/-- A sequence of core operations: publish an event with one seat,
register one ticket, cancel (one seat released), check the cancelled
registration in by its ticket, undo the check-in (status becomes
`confirmed`), and cancel again (the same seat released a second time). -/
def c1ops : List Op :=
  [Op.createEv 0 EStatus.published 100 1,
   Op.register 0 0 1 1,
   Op.cancel 0 0 1,
   Op.checkin 0 0 (ticketChars 0),
   Op.undo 0 0,
   Op.cancel 0 0 1]

/-- C1: the claim states that after every sequence of core operations
every event satisfies `0 <= available_seats <= total_seats`.  The code
violates it: cancelling, checking the cancelled registration in, undoing
the check-in (which unconditionally sets the status to `confirmed`) and
cancelling again releases the same seat twice, leaving
`available_seats = 2 > 1 = total_seats`. -/
theorem c1_seat_invariant_violated : ¬ seatInvariant (runOps db0 c1ops) := by
  simp only [seatInvariant]
  decide

/-- C1, the concrete counter values at the end of the failing sequence:
`available_seats = 2`, `total_seats = 1`. -/
theorem c1_final_counters :
    (findEvent (runOps db0 c1ops).events 0).map
      (fun e => (e.availableSeats, e.totalSeats)) = some (2, 1) := rfl

/-- Publish an event with two seats, register user 1 for one ticket,
cancel that registration.  The sole remaining row for (event 0, user 1)
is cancelled. -/
def c8ops : List Op :=
  [Op.createEv 0 EStatus.published 100 2,
   Op.register 0 0 1 1,
   Op.cancel 0 0 1]

/-- The store after `c8ops`: 2 available seats of 2, one cancelled
registration of user 1. -/
def c8db : DB := runOps db0 c8ops

/-- C8: the claim states that a user whose sole previous registration
for the event is cancelled can successfully register again.  The view's
duplicate check does allow the attempt through (only non-cancelled rows
block it), but the insert of the fresh row then violates
`unique_together = ['event', 'user']`, which also covers cancelled
rows: the registration fails with the database integrity error, after
the seat decrement has already been persisted (2 seats drop to 1 with
no live registration). -/
theorem c8_reregistration_hits_unique_constraint :
    (createRsvp c8db 0 0 1 1).2 = Except.error Err.uniqueViolation ∧
    (createRsvp c8db 0 0 1 1).1.rsvps = c8db.rsvps ∧
    (findEvent c8db.events 0).map Event.availableSeats = some 2 ∧
    (findEvent (createRsvp c8db 0 0 1 1).1.events 0).map
        Event.availableSeats = some 1 :=
  ⟨rfl, rfl, rfl, rfl⟩

/-- The first five operations of `c1ops`: the state in which the
cancelled-then-checked-in-then-undone registration sits at `confirmed`
with the event already back at 1 available seat of 1 total. -/
def c3ops : List Op :=
  [Op.createEv 0 EStatus.published 100 1,
   Op.register 0 0 1 1,
   Op.cancel 0 0 1,
   Op.checkin 0 0 (ticketChars 0),
   Op.undo 0 0]

/-- The store after `c3ops`. -/
def c3db : DB := runOps db0 c3ops

/-- C3, counterexample: the claim states that cancelling a registration
for n tickets sets `available_seats` to
`min(available_seats + n, total_seats)`.  In the reachable state `c3db`
(available = total = 1, registration 0 holds 1 ticket) the cancellation
succeeds and yields 2, not `min (1 + 1) 1 = 1`: `RSVP.cancel` has no
cap. -/
theorem c3_cancel_cap_counterexample :
    (findEvent c3db.events 0).map
        (fun e => (e.availableSeats, e.totalSeats)) = some (1, 1) ∧
    (findRsvpById c3db.rsvps 0).map RSVP.numberOfTickets = some 1 ∧
    (cancelRsvp c3db 0 0 1).2 = Except.ok () ∧
    (findEvent (cancelRsvp c3db 0 0 1).1.events 0).map
        Event.availableSeats = some 2 ∧
    ((2 : Int) = min (1 + 1) 1) = False :=
  ⟨rfl, rfl, rfl, rfl, by simp⟩

/-! ## Registration and cancellation, general theorems -/

theorem activeDup_false_of_no_row {rs : List RSVP} {e u : Nat}
    (h : hasRsvpRow rs e u = false) : activeDup rs e u = false := by
  unfold hasRsvpRow at h
  unfold activeDup
  cases hf : findRsvpByEventUser rs e u with
  | none => rfl
  | some x => rw [hf] at h; simp at h

/-- C2: with a published, not-yet-started event, no active registration
for the user, and a form-valid quantity `1 ≤ n` exceeding
`available_seats` (which covers `available_seats = 0`), `create_rsvp`
fails with the capacity error and the store is unchanged — in
particular no registration row is created. -/
theorem c2_overcapacity_registration_rejected (db : DB) (now : Int)
    (eid uid : Nat) (n : Int) (ev : Event)
    (hev : findEvent db.events eid = some ev)
    (hpub : ev.status = EStatus.published)
    (hdup : activeDup db.rsvps eid uid = false)
    (hstart : ¬ ev.startDate < now)
    (hn : 1 ≤ n)
    (hcap : ev.availableSeats < n) :
    createRsvp db now eid uid n = (db, Except.error Err.capacityExceeded) := by
  unfold createRsvp
  rw [hev]
  dsimp only
  rw [if_neg (by simp [hpub])]
  rw [if_neg (by simp [hdup])]
  by_cases h0 : ev.availableSeats ≤ 0
  · rw [if_pos h0]
  · rw [if_neg h0, if_neg hstart, if_neg (by omega), if_pos (by omega)]

/-- C2, witness event: published, in the future, 7 of 10 seats left. -/
def wEv : Event :=
  { id := 0, organizer := 0, status := EStatus.published, startDate := 100,
    totalSeats := 10, availableSeats := 7 }

/-- A confirmed registration of user 1 for 3 tickets on `wEv`. -/
def wR : RSVP :=
  { id := 0, eventId := 0, userId := 1, status := RStatus.confirmed,
    numberOfTickets := 3, ticketNumber := 0 }

/-- A small concrete store used by the witnesses. -/
def wdb : DB :=
  { events := [wEv], rsvps := [wR], checkins := [],
    nextEventId := 1, nextRsvpId := 1, nextCheckinId := 1, nextTicket := 1 }

/-- C2, witness: user 2 asks for 9 of the 7 remaining seats and is
rejected with the store untouched. -/
theorem c2_overcapacity_registration_rejected_witness :
    createRsvp wdb 0 0 2 9 = (wdb, Except.error Err.capacityExceeded) :=
  c2_overcapacity_registration_rejected wdb 0 0 2 9 wEv rfl rfl rfl
    (by decide) (by decide) (by decide)

/-- C3 (amended): cancelling a registration for n tickets increments
`available_seats` by exactly n, with no cap at `total_seats` —
`RSVP.cancel` performs a plain `+=`. -/
theorem c3_release_adds_exactly (db : DB) (now : Int) (rid uid : Nat)
    (r : RSVP) (ev : Event)
    (hr : findRsvpById db.rsvps rid = some r)
    (hu : r.userId = uid)
    (hc : r.status ≠ RStatus.cancelled)
    (ha : r.status ≠ RStatus.attended)
    (hev : findEvent db.events r.eventId = some ev)
    (hstart : ¬ ev.startDate < now) :
    (cancelRsvp db now rid uid).2 = Except.ok () ∧
    (findEvent (cancelRsvp db now rid uid).1.events r.eventId).map
        Event.availableSeats
      = some (ev.availableSeats + r.numberOfTickets) := by
  unfold cancelRsvp
  rw [hr]
  dsimp only
  rw [if_neg (by simp [hu]), if_neg hc, hev]
  dsimp only
  rw [if_neg hstart, if_neg ha]
  refine ⟨rfl, ?_⟩
  simp [findEvent_update_self, hev]

/-- C3, witness: cancelling `wR` (3 tickets) moves `wEv` from 7 to 10
available seats. -/
theorem c3_release_adds_exactly_witness :
    (cancelRsvp wdb 0 0 1).2 = Except.ok () ∧
    (findEvent (cancelRsvp wdb 0 0 1).1.events wR.eventId).map
        Event.availableSeats
      = some (wEv.availableSeats + wR.numberOfTickets) :=
  c3_release_adds_exactly wdb 0 0 1 wR wEv rfl rfl (by decide) (by decide)
    rfl (by decide)

/-- C4: for `1 ≤ n ≤ available_seats` and a user with no existing row
for the event, registration succeeds and decrements `available_seats`
by n, and cancelling the fresh registration restores it to exactly its
pre-registration value. -/
theorem c4_register_then_cancel_restores (db : DB) (now : Int)
    (eid uid : Nat) (n : Int) (ev : Event)
    (hev : findEvent db.events eid = some ev)
    (hpub : ev.status = EStatus.published)
    (hrow : hasRsvpRow db.rsvps eid uid = false)
    (hstart : ¬ ev.startDate < now)
    (h1 : 1 ≤ n) (h2 : n ≤ ev.availableSeats) :
    ∃ db1, createRsvp db now eid uid n = (db1, Except.ok db.nextRsvpId) ∧
      (findEvent db1.events eid).map Event.availableSeats
        = some (ev.availableSeats - n) ∧
      (cancelRsvp db1 now db.nextRsvpId uid).2 = Except.ok () ∧
      (findEvent (cancelRsvp db1 now db.nextRsvpId uid).1.events eid).map
          Event.availableSeats = some ev.availableSeats := by
  have hreg : createRsvp db now eid uid n
      = ({ db with
            events := updateEventSeats db.events eid (ev.availableSeats - n),
            rsvps := { id := db.nextRsvpId, eventId := eid, userId := uid,
                       status := RStatus.confirmed, numberOfTickets := n,
                       ticketNumber := db.nextTicket } :: db.rsvps,
            nextRsvpId := db.nextRsvpId + 1,
            nextTicket := db.nextTicket + 1 },
         Except.ok db.nextRsvpId) := by
    unfold createRsvp
    rw [hev]
    dsimp only
    rw [if_neg (by simp [hpub]),
        if_neg (by simp [activeDup_false_of_no_row hrow]),
        if_neg (by omega), if_neg hstart, if_neg (by omega),
        if_neg (by omega), if_neg (by simp [hrow])]
  have hev1 : findEvent
      (updateEventSeats db.events eid (ev.availableSeats - n)) eid
      = some { ev with availableSeats := ev.availableSeats - n } := by
    rw [findEvent_update_self, hev]; rfl
  refine ⟨_, hreg, ?_, ?_, ?_⟩
  · simp [findEvent_update_self, hev]
  · unfold cancelRsvp
    rw [findRsvpById, if_pos rfl]
    dsimp only
    rw [if_neg (show ¬ uid ≠ uid from by simp),
        if_neg (show ¬ RStatus.confirmed = RStatus.cancelled from by decide),
        hev1]
    dsimp only
    rw [if_neg hstart,
        if_neg (show ¬ RStatus.confirmed = RStatus.attended from by decide)]
  · unfold cancelRsvp
    rw [findRsvpById, if_pos rfl]
    dsimp only
    rw [if_neg (show ¬ uid ≠ uid from by simp),
        if_neg (show ¬ RStatus.confirmed = RStatus.cancelled from by decide),
        hev1]
    dsimp only
    rw [if_neg hstart,
        if_neg (show ¬ RStatus.confirmed = RStatus.attended from by decide)]
    dsimp only
    rw [findEvent_update_self, hev1]
    have hn' : ev.availableSeats - n + n = ev.availableSeats := by omega
    simp [hn']

/-- C4, witness: on `wdb` user 2 registers for 4 of the 7 free seats
(7 drops to 3) and cancels; the count returns to 7. -/
theorem c4_register_then_cancel_restores_witness :
    ∃ db1, createRsvp wdb 0 0 2 4 = (db1, Except.ok wdb.nextRsvpId) ∧
      (findEvent db1.events 0).map Event.availableSeats
        = some (wEv.availableSeats - 4) ∧
      (cancelRsvp db1 0 wdb.nextRsvpId 2).2 = Except.ok () ∧
      (findEvent (cancelRsvp db1 0 wdb.nextRsvpId 2).1.events 0).map
          Event.availableSeats = some wEv.availableSeats :=
  c4_register_then_cancel_restores wdb 0 0 2 4 wEv rfl rfl rfl (by decide)
    (by decide) (by decide)

/-! ## Check-in -/

/-- C5: scanning a registration's own ticket, check-in fails with
`AlreadyCheckedIn` exactly when a `CheckIn` row already exists for it
(so of two successive attempts only the first succeeds), the failing
attempt leaves the store unchanged, and a successful attempt creates
exactly one `CheckIn` row, moves the registration to `attended`, and
leaves the event rows — hence `available_seats` and `total_seats` —
untouched. -/
theorem c5_checkin_creates_once (db : DB) (eid op : Nat)
    (r : RSVP) (ev : Event)
    (hT : (db.rsvps.map RSVP.ticketNumber).Nodup)
    (hI : (db.rsvps.map RSVP.id).Nodup)
    (hmem : r ∈ db.rsvps)
    (he : r.eventId = eid)
    (hev : findEvent db.events eid = some ev)
    (horg : ev.organizer = op) :
    ((performCheckin db eid op (ticketChars r.ticketNumber)).2
        = Except.error Err.alreadyCheckedIn
      ↔ findCheckinByRsvp db.checkins r.id ≠ none) ∧
    (findCheckinByRsvp db.checkins r.id ≠ none →
      (performCheckin db eid op (ticketChars r.ticketNumber)).1 = db) ∧
    (findCheckinByRsvp db.checkins r.id = none →
      (performCheckin db eid op (ticketChars r.ticketNumber)).2
          = Except.ok db.nextCheckinId ∧
      (performCheckin db eid op (ticketChars r.ticketNumber)).1.checkins
        = { id := db.nextCheckinId, rsvpId := r.id, checkedInBy := op }
            :: db.checkins ∧
      findRsvpById
          (performCheckin db eid op (ticketChars r.ticketNumber)).1.rsvps r.id
        = some { r with status := RStatus.attended } ∧
      (performCheckin db eid op (ticketChars r.ticketNumber)).1.events
        = db.events ∧
      (performCheckin (performCheckin db eid op (ticketChars r.ticketNumber)).1
          eid op (ticketChars r.ticketNumber)).2
        = Except.error Err.alreadyCheckedIn) := by
  have hfind0 : findRsvpByTicket db.rsvps (ticketChars r.ticketNumber) eid
      = some r := he ▸ findRsvpByTicket_of_mem hT hmem
  have horg' : ¬ ev.organizer ≠ op := by simp [horg]
  have hstrip : ¬ pyStrip (ticketChars r.ticketNumber) = [] :=
    pyStrip_ticketChars_ne_nil r.ticketNumber
  cases hc : findCheckinByRsvp db.checkins r.id with
  | some c =>
    have hrun : performCheckin db eid op (ticketChars r.ticketNumber)
        = (db, Except.error Err.alreadyCheckedIn) := by
      unfold performCheckin
      rw [hev]
      dsimp only
      rw [if_neg horg', if_neg hstrip, extractTicket_ticketChars, hfind0]
      dsimp only
      rw [hc]
    refine ⟨by simp [hrun], fun _ => by simp [hrun], fun h => by simp at h⟩
  | none =>
    have hrun : performCheckin db eid op (ticketChars r.ticketNumber)
        = ({ db with
              checkins := { id := db.nextCheckinId, rsvpId := r.id,
                            checkedInBy := op } :: db.checkins,
              nextCheckinId := db.nextCheckinId + 1,
              rsvps := updateRsvpStatus db.rsvps r.id RStatus.attended },
           Except.ok db.nextCheckinId) := by
      unfold performCheckin
      rw [hev]
      dsimp only
      rw [if_neg horg', if_neg hstrip, extractTicket_ticketChars, hfind0]
      dsimp only
      rw [hc]
    refine ⟨by simp [hrun], fun h => absurd rfl h, fun _ => ?_⟩
    refine ⟨by simp [hrun], by simp [hrun], ?_, by simp [hrun], ?_⟩
    · rw [hrun]
      dsimp only
      rw [findRsvpById_update, findRsvpById_of_mem hI hmem]
      simp
    · rw [hrun]
      unfold performCheckin
      rw [hev]
      dsimp only
      rw [if_neg horg', if_neg hstrip, extractTicket_ticketChars,
          findRsvpByTicket_update, hfind0, Option.map_some']
      rw [if_pos rfl]
      dsimp only
      rw [show ({ r with status := RStatus.attended } : RSVP).id = r.id
            from rfl]
      rw [findCheckinByRsvp, if_pos rfl]

/-- C5, witness: on `wdb` (no check-in rows) checking `wR` in succeeds,
adds one `CheckIn`, marks `wR` attended, leaves events untouched, and a
second attempt reports `AlreadyCheckedIn`. -/
theorem c5_checkin_creates_once_witness :
    ((performCheckin wdb 0 0 (ticketChars wR.ticketNumber)).2
        = Except.error Err.alreadyCheckedIn
      ↔ findCheckinByRsvp wdb.checkins wR.id ≠ none) ∧
    (findCheckinByRsvp wdb.checkins wR.id ≠ none →
      (performCheckin wdb 0 0 (ticketChars wR.ticketNumber)).1 = wdb) ∧
    (findCheckinByRsvp wdb.checkins wR.id = none →
      (performCheckin wdb 0 0 (ticketChars wR.ticketNumber)).2
          = Except.ok wdb.nextCheckinId ∧
      (performCheckin wdb 0 0 (ticketChars wR.ticketNumber)).1.checkins
        = { id := wdb.nextCheckinId, rsvpId := wR.id, checkedInBy := 0 }
            :: wdb.checkins ∧
      findRsvpById
          (performCheckin wdb 0 0 (ticketChars wR.ticketNumber)).1.rsvps wR.id
        = some { wR with status := RStatus.attended } ∧
      (performCheckin wdb 0 0 (ticketChars wR.ticketNumber)).1.events
        = wdb.events ∧
      (performCheckin (performCheckin wdb 0 0 (ticketChars wR.ticketNumber)).1
          0 0 (ticketChars wR.ticketNumber)).2
        = Except.error Err.alreadyCheckedIn) :=
  c5_checkin_creates_once wdb 0 0 wR wEv (by decide) (by decide) (by decide)
    rfl rfl rfl

theorem findCheckinById_sound {cs : List CheckIn} {i : Nat} {c : CheckIn}
    (h : findCheckinById cs i = some c) : c ∈ cs ∧ c.id = i := by
  induction cs with
  | nil => simp [findCheckinById] at h
  | cons x xs ih =>
    rw [findCheckinById] at h
    by_cases hx : x.id = i
    · rw [if_pos hx] at h
      obtain rfl : x = c := by injection h
      exact ⟨by simp, hx⟩
    · rw [if_neg hx] at h
      exact ⟨List.mem_cons_of_mem x (ih h).1, (ih h).2⟩

/-- C6: undoing a check-in succeeds, deletes the `CheckIn` row (both by
its id and as the registration's one-to-one row), reverts the
registration to `confirmed`, and a subsequent check-in of the same
registration succeeds again, creating a fresh `CheckIn` row. -/
theorem c6_undo_checkin_reverts_and_allows_recheckin (db : DB)
    (cid op : Nat) (c : CheckIn) (r : RSVP) (ev : Event)
    (hT : (db.rsvps.map RSVP.ticketNumber).Nodup)
    (hI : (db.rsvps.map RSVP.id).Nodup)
    (hC : (db.checkins.map CheckIn.rsvpId).Nodup)
    (hc : findCheckinById db.checkins cid = some c)
    (hr : findRsvpById db.rsvps c.rsvpId = some r)
    (hev : findEvent db.events r.eventId = some ev)
    (horg : ev.organizer = op) :
    (undoCheckin db cid op).2 = Except.ok () ∧
    findCheckinById (undoCheckin db cid op).1.checkins cid = none ∧
    findCheckinByRsvp (undoCheckin db cid op).1.checkins r.id = none ∧
    findRsvpById (undoCheckin db cid op).1.rsvps r.id
      = some { r with status := RStatus.confirmed } ∧
    (performCheckin (undoCheckin db cid op).1 r.eventId op
        (ticketChars r.ticketNumber)).2 = Except.ok db.nextCheckinId ∧
    (performCheckin (undoCheckin db cid op).1 r.eventId op
        (ticketChars r.ticketNumber)).1.checkins
      = { id := db.nextCheckinId, rsvpId := r.id, checkedInBy := op }
          :: (undoCheckin db cid op).1.checkins := by
  obtain ⟨hcmem, hcid⟩ := findCheckinById_sound hc
  obtain ⟨hrmem, hrid⟩ := findRsvpById_sound hr
  have horg' : ¬ ev.organizer ≠ op := by simp [horg]
  have hrun : undoCheckin db cid op
      = ({ db with
            rsvps := updateRsvpStatus db.rsvps r.id RStatus.confirmed,
            checkins := removeCheckin db.checkins cid },
         Except.ok ()) := by
    unfold undoCheckin
    rw [hc]
    dsimp only
    rw [hr]
    dsimp only
    rw [hev]
    dsimp only
    rw [if_neg horg']
  have hgone : findCheckinByRsvp (removeCheckin db.checkins cid) r.id
      = none := by
    rw [← hcid, hrid]
    exact findCheckinByRsvp_remove_none hC hcmem
  have hback : findRsvpById (updateRsvpStatus db.rsvps r.id RStatus.confirmed)
      r.id = some { r with status := RStatus.confirmed } := by
    rw [findRsvpById_update, findRsvpById_of_mem hI hrmem,
        Option.map_some', if_pos rfl]
  refine ⟨by simp [hrun], ?_, ?_, ?_, ?_, ?_⟩
  · rw [hrun]
    exact findCheckinById_remove_none db.checkins cid
  · rw [hrun]
    exact hgone
  · rw [hrun]
    exact hback
  · rw [hrun]
    unfold performCheckin
    rw [hev]
    dsimp only
    rw [if_neg horg', if_neg (pyStrip_ticketChars_ne_nil r.ticketNumber),
        extractTicket_ticketChars, findRsvpByTicket_update,
        findRsvpByTicket_of_mem hT hrmem, Option.map_some', if_pos rfl]
    dsimp only
    rw [show ({ r with status := RStatus.confirmed } : RSVP).id = r.id
          from rfl, hgone]
  · rw [hrun]
    unfold performCheckin
    rw [hev]
    dsimp only
    rw [if_neg horg', if_neg (pyStrip_ticketChars_ne_nil r.ticketNumber),
        extractTicket_ticketChars, findRsvpByTicket_update,
        findRsvpByTicket_of_mem hT hrmem, Option.map_some', if_pos rfl]
    dsimp only
    rw [show ({ r with status := RStatus.confirmed } : RSVP).id = r.id
          from rfl, hgone]

/-- The `wR` registration after a check-in. -/
def wRA : RSVP := { wR with status := RStatus.attended }

/-- The check-in row for `wR`. -/
def wC : CheckIn := { id := 0, rsvpId := 0, checkedInBy := 0 }

/-- `wdb` after a performed check-in: `wR` attended, one check-in row. -/
def wdbC : DB :=
  { events := [wEv], rsvps := [wRA], checkins := [wC],
    nextEventId := 1, nextRsvpId := 1, nextCheckinId := 1, nextTicket := 1 }

/-- C6, witness: undoing the check-in on `wdbC` removes the row, sets
the registration back to `confirmed`, and a re-check-in succeeds with a
fresh row. -/
theorem c6_undo_checkin_reverts_and_allows_recheckin_witness :
    (undoCheckin wdbC 0 0).2 = Except.ok () ∧
    findCheckinById (undoCheckin wdbC 0 0).1.checkins 0 = none ∧
    findCheckinByRsvp (undoCheckin wdbC 0 0).1.checkins wRA.id = none ∧
    findRsvpById (undoCheckin wdbC 0 0).1.rsvps wRA.id
      = some { wRA with status := RStatus.confirmed } ∧
    (performCheckin (undoCheckin wdbC 0 0).1 wRA.eventId 0
        (ticketChars wRA.ticketNumber)).2 = Except.ok wdbC.nextCheckinId ∧
    (performCheckin (undoCheckin wdbC 0 0).1 wRA.eventId 0
        (ticketChars wRA.ticketNumber)).1.checkins
      = { id := wdbC.nextCheckinId, rsvpId := wRA.id, checkedInBy := 0 }
          :: (undoCheckin wdbC 0 0).1.checkins :=
  c6_undo_checkin_reverts_and_allows_recheckin wdbC 0 0 wC wRA wEv
    (by decide) (by decide) (by decide) rfl rfl rfl rfl

/-! ## Scan payload round trip -/

/-- Server-side validation of `CheckInForm.ticket_number`
(checkin/forms.py): the submitted value is stripped, must be non-empty
(`required`), and must not exceed `max_length = 100` (Django validates
the bound on the stripped value). -/
def checkInFormOk (input : List Char) : Bool :=
  decide (pyStrip input ≠ [] ∧ (pyStrip input).length ≤ 100)

/-- C7: the scan-time normalisation recovers the ticket string both
from the registration's QR payload `TICKET:<tn>|EVENT:<e>|USER:<u>` and
from the raw ticket string; the (ticket_number, event) lookup then
returns exactly that registration; and any input the check-in form
accepts (non-empty and within its `max_length = 100` bound — the
preempting form-rejection path excluded, as with the other error
precedences) whose extracted ticket matches no registration of the
scanned event — including a valid ticket of a different event — makes
`perform_checkin` fail with `TicketNotFound`, leaving the store
unchanged. -/
theorem c7_scan_parser_and_lookup (db : DB) (op uid : Nat) (r : RSVP)
    (hT : (db.rsvps.map RSVP.ticketNumber).Nodup)
    (hmem : r ∈ db.rsvps) :
    extractTicket (qrData (ticketChars r.ticketNumber) r.eventId uid)
      = ticketChars r.ticketNumber ∧
    extractTicket (ticketChars r.ticketNumber) = ticketChars r.ticketNumber ∧
    findRsvpByTicket db.rsvps
        (extractTicket (qrData (ticketChars r.ticketNumber) r.eventId uid))
        r.eventId = some r ∧
    findRsvpByTicket db.rsvps (extractTicket (ticketChars r.ticketNumber))
        r.eventId = some r ∧
    (∀ (input : List Char) (eid : Nat) (ev : Event),
      findEvent db.events eid = some ev → ev.organizer = op →
      checkInFormOk input = true →
      (∀ r' ∈ db.rsvps, r'.eventId = eid →
        ticketChars r'.ticketNumber ≠ extractTicket input) →
      performCheckin db eid op input
        = (db, Except.error Err.ticketNotFound)) := by
  refine ⟨extractTicket_qrData _ _ _, extractTicket_ticketChars _, ?_, ?_, ?_⟩
  · rw [extractTicket_qrData]
    exact findRsvpByTicket_of_mem hT hmem
  · rw [extractTicket_ticketChars]
    exact findRsvpByTicket_of_mem hT hmem
  · intro input eid ev hev horg hform hnone
    have hstrip : ¬ pyStrip input = [] := (of_decide_eq_true hform).1
    unfold performCheckin
    rw [hev]
    dsimp only
    rw [if_neg (by simp [horg]), if_neg hstrip,
        findRsvpByTicket_none hnone]

/-- A second published event, with its own registration (ticket 1). -/
def w2Ev : Event :=
  { id := 1, organizer := 0, status := EStatus.published, startDate := 100,
    totalSeats := 5, availableSeats := 5 }

/-- User 2's registration for the second event. -/
def w2R : RSVP :=
  { id := 1, eventId := 1, userId := 2, status := RStatus.confirmed,
    numberOfTickets := 1, ticketNumber := 1 }

/-- A store with two events and one registration on each. -/
def w2db : DB :=
  { events := [wEv, w2Ev], rsvps := [wR, w2R], checkins := [],
    nextEventId := 2, nextRsvpId := 2, nextCheckinId := 1, nextTicket := 2 }

/-- C7, witness: on `w2db` the payload and the raw ticket of `wR` both
resolve to `wR` for event 0, while scanning event 1's valid,
form-accepted ticket against event 0 fails with `TicketNotFound`. -/
theorem c7_scan_parser_and_lookup_witness :
    extractTicket (qrData (ticketChars wR.ticketNumber) wR.eventId 1)
      = ticketChars wR.ticketNumber ∧
    extractTicket (ticketChars wR.ticketNumber)
      = ticketChars wR.ticketNumber ∧
    findRsvpByTicket w2db.rsvps
        (extractTicket (qrData (ticketChars wR.ticketNumber) wR.eventId 1))
        wR.eventId = some wR ∧
    findRsvpByTicket w2db.rsvps (extractTicket (ticketChars wR.ticketNumber))
        wR.eventId = some wR ∧
    performCheckin w2db 0 0 (ticketChars w2R.ticketNumber)
      = (w2db, Except.error Err.ticketNotFound) :=
  have h := c7_scan_parser_and_lookup w2db 0 1 wR (by decide) (by decide)
  ⟨h.1, h.2.1, h.2.2.1, h.2.2.2.1,
   h.2.2.2.2 (ticketChars w2R.ticketNumber) 0 wEv rfl rfl (by decide)
     (by decide)⟩

/-- C10: the scan-time lookup does not restrict by status, so a
cancelled (or pending) registration is checked in by its ticket all the
same: a `CheckIn` row is created, the status jumps to `attended`, and
the event rows (hence the seat counters) are untouched — no seat is
re-reserved.  Undoing that check-in then sets the status to `confirmed`,
not back to the prior cancelled/pending status. -/
theorem c10_checkin_ignores_status (db : DB) (eid op : Nat)
    (r : RSVP) (ev : Event)
    (hT : (db.rsvps.map RSVP.ticketNumber).Nodup)
    (hI : (db.rsvps.map RSVP.id).Nodup)
    (hmem : r ∈ db.rsvps)
    (he : r.eventId = eid)
    (hev : findEvent db.events eid = some ev)
    (horg : ev.organizer = op)
    (_hst : r.status = RStatus.cancelled ∨ r.status = RStatus.pending)
    (hnoc : findCheckinByRsvp db.checkins r.id = none) :
    (performCheckin db eid op (ticketChars r.ticketNumber)).2
      = Except.ok db.nextCheckinId ∧
    (performCheckin db eid op (ticketChars r.ticketNumber)).1.checkins
      = { id := db.nextCheckinId, rsvpId := r.id, checkedInBy := op }
          :: db.checkins ∧
    findRsvpById
        (performCheckin db eid op (ticketChars r.ticketNumber)).1.rsvps r.id
      = some { r with status := RStatus.attended } ∧
    (performCheckin db eid op (ticketChars r.ticketNumber)).1.events
      = db.events ∧
    (undoCheckin (performCheckin db eid op (ticketChars r.ticketNumber)).1
        db.nextCheckinId op).2 = Except.ok () ∧
    findRsvpById
        (undoCheckin (performCheckin db eid op (ticketChars r.ticketNumber)).1
          db.nextCheckinId op).1.rsvps r.id
      = some { r with status := RStatus.confirmed } := by
  have hfind0 : findRsvpByTicket db.rsvps (ticketChars r.ticketNumber) eid
      = some r := he ▸ findRsvpByTicket_of_mem hT hmem
  have horg' : ¬ ev.organizer ≠ op := by simp [horg]
  have hstrip : ¬ pyStrip (ticketChars r.ticketNumber) = [] :=
    pyStrip_ticketChars_ne_nil r.ticketNumber
  have hrun : performCheckin db eid op (ticketChars r.ticketNumber)
      = ({ db with
            checkins := { id := db.nextCheckinId, rsvpId := r.id,
                          checkedInBy := op } :: db.checkins,
            nextCheckinId := db.nextCheckinId + 1,
            rsvps := updateRsvpStatus db.rsvps r.id RStatus.attended },
         Except.ok db.nextCheckinId) := by
    unfold performCheckin
    rw [hev]
    dsimp only
    rw [if_neg horg', if_neg hstrip, extractTicket_ticketChars, hfind0]
    dsimp only
    rw [hnoc]
  have hatt : findRsvpById (updateRsvpStatus db.rsvps r.id RStatus.attended)
      r.id = some { r with status := RStatus.attended } := by
    rw [findRsvpById_update, findRsvpById_of_mem hI hmem,
        Option.map_some', if_pos rfl]
  have hundo : undoCheckin
      (performCheckin db eid op (ticketChars r.ticketNumber)).1
      db.nextCheckinId op
      = ({ db with
            checkins := removeCheckin
              ({ id := db.nextCheckinId, rsvpId := r.id, checkedInBy := op }
                :: db.checkins) db.nextCheckinId,
            nextCheckinId := db.nextCheckinId + 1,
            rsvps := updateRsvpStatus
              (updateRsvpStatus db.rsvps r.id RStatus.attended) r.id
              RStatus.confirmed },
         Except.ok ()) := by
    rw [hrun]
    unfold undoCheckin
    dsimp only
    rw [findCheckinById, if_pos rfl]
    dsimp only
    rw [hatt]
    dsimp only
    rw [show ({ r with status := RStatus.attended } : RSVP).eventId
          = r.eventId from rfl, he, hev]
    dsimp only
    rw [if_neg horg']
  refine ⟨by simp [hrun], by simp [hrun], by simp [hrun, hatt], by
      simp [hrun], by simp [hundo], ?_⟩
  rw [hundo]
  dsimp only
  rw [findRsvpById_update, hatt, Option.map_some', if_pos rfl]

/-- The `wR` registration after cancellation. -/
def wRCan : RSVP := { wR with status := RStatus.cancelled }

/-- A store whose sole registration is cancelled, no check-in rows. -/
def wdbCan : DB :=
  { events := [wEv], rsvps := [wRCan], checkins := [],
    nextEventId := 1, nextRsvpId := 1, nextCheckinId := 1, nextTicket := 1 }

/-- C10, witness: on `wdbCan` the cancelled registration is checked in
by its ticket, becomes `attended` with no seat change, and undoing sets
it to `confirmed` (not back to `cancelled`). -/
theorem c10_checkin_ignores_status_witness :
    (performCheckin wdbCan 0 0 (ticketChars wRCan.ticketNumber)).2
      = Except.ok wdbCan.nextCheckinId ∧
    (performCheckin wdbCan 0 0 (ticketChars wRCan.ticketNumber)).1.checkins
      = { id := wdbCan.nextCheckinId, rsvpId := wRCan.id, checkedInBy := 0 }
          :: wdbCan.checkins ∧
    findRsvpById
        (performCheckin wdbCan 0 0
          (ticketChars wRCan.ticketNumber)).1.rsvps wRCan.id
      = some { wRCan with status := RStatus.attended } ∧
    (performCheckin wdbCan 0 0 (ticketChars wRCan.ticketNumber)).1.events
      = wdbCan.events ∧
    (undoCheckin
        (performCheckin wdbCan 0 0 (ticketChars wRCan.ticketNumber)).1
        wdbCan.nextCheckinId 0).2 = Except.ok () ∧
    findRsvpById
        (undoCheckin
          (performCheckin wdbCan 0 0 (ticketChars wRCan.ticketNumber)).1
          wdbCan.nextCheckinId 0).1.rsvps wRCan.id
      = some { wRCan with status := RStatus.confirmed } :=
  c10_checkin_ignores_status wdbCan 0 0 wRCan wEv (by decide) (by decide)
    (by decide) rfl rfl rfl (Or.inl rfl) rfl

/-! ## Ticket immutability and uniqueness across operation sequences -/

theorem map_ticket_update (rs : List RSVP) (i : Nat) (st : RStatus) :
    (updateRsvpStatus rs i st).map RSVP.ticketNumber
      = rs.map RSVP.ticketNumber := by
  induction rs with
  | nil => rfl
  | cons x xs ih =>
    by_cases hx : x.id = i <;> simp [updateRsvpStatus, hx, ih]

theorem mem_update_of_mem {rs : List RSVP} {r : RSVP} (hmem : r ∈ rs)
    (i : Nat) (st : RStatus) :
    ∃ r' ∈ updateRsvpStatus rs i st,
      r'.id = r.id ∧ r'.ticketNumber = r.ticketNumber := by
  induction rs with
  | nil => simp at hmem
  | cons x xs ih =>
    rcases List.mem_cons.mp hmem with rfl | hmem
    · by_cases hx : r.id = i
      · exact ⟨{ r with status := st }, by simp [updateRsvpStatus, hx], rfl,
          rfl⟩
      · exact ⟨r, by simp [updateRsvpStatus, hx], rfl, rfl⟩
    · obtain ⟨r', hr', h1, h2⟩ := ih hmem
      exact ⟨r', by simp [updateRsvpStatus, List.mem_cons, hr'], h1, h2⟩

/-- The registration table after any single operation either is
unchanged, has only statuses rewritten, or gained exactly one fresh row
carrying the ticket counter (which then advances). -/
theorem runOp_rsvps_shape (db : DB) (op : Op) :
    ((runOp db op).rsvps = db.rsvps
        ∧ (runOp db op).nextTicket = db.nextTicket)
    ∨ (∃ i st, (runOp db op).rsvps = updateRsvpStatus db.rsvps i st
        ∧ (runOp db op).nextTicket = db.nextTicket)
    ∨ (∃ r0, (runOp db op).rsvps = r0 :: db.rsvps
        ∧ r0.ticketNumber = db.nextTicket
        ∧ (runOp db op).nextTicket = db.nextTicket + 1) := by
  cases op with
  | createEv o st s t => exact Or.inl ⟨rfl, rfl⟩
  | register now e u n =>
    simp only [runOp, createRsvp]
    cases findEvent db.events e with
    | none => exact Or.inl ⟨rfl, rfl⟩
    | some ev =>
      dsimp only
      by_cases h1 : ev.status ≠ EStatus.published
      · rw [if_pos h1]; exact Or.inl ⟨rfl, rfl⟩
      · rw [if_neg h1]
        by_cases h2 : activeDup db.rsvps e u = true
        · rw [if_pos h2]; exact Or.inl ⟨rfl, rfl⟩
        · rw [if_neg h2]
          by_cases h3 : ev.availableSeats ≤ 0
          · rw [if_pos h3]; exact Or.inl ⟨rfl, rfl⟩
          · rw [if_neg h3]
            by_cases h4 : ev.startDate < now
            · rw [if_pos h4]; exact Or.inl ⟨rfl, rfl⟩
            · rw [if_neg h4]
              by_cases h5 : n < 1
              · rw [if_pos h5]; exact Or.inl ⟨rfl, rfl⟩
              · rw [if_neg h5]
                by_cases h6 : n > ev.availableSeats
                · rw [if_pos h6]; exact Or.inl ⟨rfl, rfl⟩
                · rw [if_neg h6]
                  by_cases h7 : hasRsvpRow db.rsvps e u = true
                  · rw [if_pos h7]; exact Or.inl ⟨rfl, rfl⟩
                  · rw [if_neg h7]
                    exact Or.inr (Or.inr ⟨_, rfl, rfl, rfl⟩)
  | cancel now rid u =>
    simp only [runOp, cancelRsvp]
    cases findRsvpById db.rsvps rid with
    | none => exact Or.inl ⟨rfl, rfl⟩
    | some r =>
      dsimp only
      by_cases h1 : r.userId ≠ u
      · rw [if_pos h1]; exact Or.inl ⟨rfl, rfl⟩
      · rw [if_neg h1]
        by_cases h2 : r.status = RStatus.cancelled
        · rw [if_pos h2]; exact Or.inl ⟨rfl, rfl⟩
        · rw [if_neg h2]
          cases findEvent db.events r.eventId with
          | none => exact Or.inl ⟨rfl, rfl⟩
          | some ev =>
            dsimp only
            by_cases h3 : ev.startDate < now
            · rw [if_pos h3]; exact Or.inl ⟨rfl, rfl⟩
            · rw [if_neg h3]
              by_cases h4 : r.status = RStatus.attended
              · rw [if_pos h4]; exact Or.inl ⟨rfl, rfl⟩
              · rw [if_neg h4]
                exact Or.inr (Or.inl ⟨rid, RStatus.cancelled, rfl, rfl⟩)
  | checkin e o input =>
    simp only [runOp, performCheckin]
    cases findEvent db.events e with
    | none => exact Or.inl ⟨rfl, rfl⟩
    | some ev =>
      dsimp only
      by_cases h1 : ev.organizer ≠ o
      · rw [if_pos h1]; exact Or.inl ⟨rfl, rfl⟩
      · rw [if_neg h1]
        by_cases h2 : pyStrip input = []
        · rw [if_pos h2]; exact Or.inl ⟨rfl, rfl⟩
        · rw [if_neg h2]
          cases findRsvpByTicket db.rsvps (extractTicket input) e with
          | none => exact Or.inl ⟨rfl, rfl⟩
          | some r =>
            dsimp only
            cases findCheckinByRsvp db.checkins r.id with
            | some c => exact Or.inl ⟨rfl, rfl⟩
            | none =>
              exact Or.inr (Or.inl ⟨r.id, RStatus.attended, rfl, rfl⟩)
  | undo cid o =>
    simp only [runOp, undoCheckin]
    cases findCheckinById db.checkins cid with
    | none => exact Or.inl ⟨rfl, rfl⟩
    | some c =>
      dsimp only
      cases findRsvpById db.rsvps c.rsvpId with
      | none => exact Or.inl ⟨rfl, rfl⟩
      | some r =>
        dsimp only
        cases findEvent db.events r.eventId with
        | none => exact Or.inl ⟨rfl, rfl⟩
        | some ev =>
          dsimp only
          by_cases h1 : ev.organizer ≠ o
          · rw [if_pos h1]; exact Or.inl ⟨rfl, rfl⟩
          · rw [if_neg h1]
            exact Or.inr (Or.inl ⟨r.id, RStatus.confirmed, rfl, rfl⟩)

/-- Ticket-supply invariant: every stored ticket index is below the
fresh counter, and stored ticket indices are pairwise distinct. -/
def ticketInv (db : DB) : Prop :=
  (∀ r ∈ db.rsvps, r.ticketNumber < db.nextTicket) ∧
  (db.rsvps.map RSVP.ticketNumber).Nodup

theorem ticketInv_runOp {db : DB} (h : ticketInv db) (op : Op) :
    ticketInv (runOp db op) := by
  rcases runOp_rsvps_shape db op with ⟨h1, h2⟩ | ⟨i, st, h1, h2⟩
      | ⟨r0, h1, ht, h2⟩
  · exact ⟨fun r hr => h2 ▸ h.1 r (h1 ▸ hr), h1 ▸ h.2⟩
  · constructor
    · intro r hr
      have hmap : r.ticketNumber
          ∈ (updateRsvpStatus db.rsvps i st).map RSVP.ticketNumber :=
        List.mem_map_of_mem RSVP.ticketNumber (h1 ▸ hr)
      rw [map_ticket_update] at hmap
      obtain ⟨r'', hmem'', heq⟩ := List.mem_map.mp hmap
      rw [h2, ← heq]
      exact h.1 r'' hmem''
    · rw [h1, map_ticket_update]
      exact h.2
  · constructor
    · intro r hr
      rw [h1] at hr
      rw [h2]
      rcases List.mem_cons.mp hr with rfl | hr
      · omega
      · have := h.1 r hr
        omega
    · rw [h1, List.map_cons, List.nodup_cons, ht]
      refine ⟨fun hmemt => ?_, h.2⟩
      obtain ⟨r'', hmem'', heq⟩ := List.mem_map.mp hmemt
      have := h.1 r'' hmem''
      omega

theorem runOp_preserves_rows {db : DB} (op : Op) {r : RSVP}
    (hmem : r ∈ db.rsvps) :
    ∃ r' ∈ (runOp db op).rsvps,
      r'.id = r.id ∧ r'.ticketNumber = r.ticketNumber := by
  rcases runOp_rsvps_shape db op with ⟨h1, -⟩ | ⟨i, st, h1, -⟩
      | ⟨r0, h1, -, -⟩
  · exact ⟨r, h1 ▸ hmem, rfl, rfl⟩
  · rw [h1]
    exact mem_update_of_mem hmem i st
  · exact ⟨r, by rw [h1]; exact List.mem_cons_of_mem r0 hmem, rfl, rfl⟩

theorem ticketInv_runOps (db : DB) (h : ticketInv db) (ops : List Op) :
    ticketInv (runOps db ops) := by
  induction ops generalizing db with
  | nil => exact h
  | cons o os ih => exact ih (runOp db o) (ticketInv_runOp h o)

/-- C9: in any store reached from the empty store by core operations,
the rendered ticket strings of the stored registrations are pairwise
distinct, and one further operation of any kind leaves every existing
registration's ticket number unchanged (the ticket is written only at
row creation, by `RSVP.save`). -/
theorem c9_tickets_unique_and_immutable (ops : List Op) (op : Op)
    (r : RSVP) (hmem : r ∈ (runOps db0 ops).rsvps) :
    ((runOps db0 ops).rsvps.map
        (fun x => ticketChars x.ticketNumber)).Nodup ∧
    ∃ r' ∈ (runOp (runOps db0 ops) op).rsvps,
      r'.id = r.id ∧ r'.ticketNumber = r.ticketNumber := by
  have hinv : ticketInv (runOps db0 ops) :=
    ticketInv_runOps db0 ⟨fun r hr => by simp [db0] at hr, by simp [db0]⟩ ops
  constructor
  · have hmm : (runOps db0 ops).rsvps.map
        (fun x => ticketChars x.ticketNumber)
        = ((runOps db0 ops).rsvps.map RSVP.ticketNumber).map ticketChars := by
      rw [List.map_map]
      rfl
    rw [hmm]
    exact List.Nodup.map ticketChars_injective hinv.2
  · exact runOp_preserves_rows op hmem

/-- The two operations of the C9 witness run. -/
def c9ops : List Op :=
  [Op.createEv 0 EStatus.published 100 2, Op.register 0 0 1 1]

/-- The registration created by `c9ops`. -/
def c9R : RSVP :=
  { id := 0, eventId := 0, userId := 1, status := RStatus.confirmed,
    numberOfTickets := 1, ticketNumber := 0 }

/-- C9, witness: after publishing an event and registering user 1, the
ticket strings are distinct and a cancellation leaves the stored ticket
number of registration 0 unchanged. -/
theorem c9_tickets_unique_and_immutable_witness :
    ((runOps db0 c9ops).rsvps.map
        (fun x => ticketChars x.ticketNumber)).Nodup ∧
    ∃ r' ∈ (runOp (runOps db0 c9ops) (Op.cancel 0 0 1)).rsvps,
      r'.id = c9R.id ∧ r'.ticketNumber = c9R.ticketNumber :=
  c9_tickets_unique_and_immutable c9ops (Op.cancel 0 0 1) c9R (by decide)
